import Mathlib

/-!
Verification of the chat-app durable-workflow service.

The application data model and handlers are embedded from the Go source
(`models/models.go`, `handlers/chat.go`, `workflows/chat.go`, `services/vllm.go`);
the durable workflow engine itself (the `dbos` package) is a library dependency
whose source is not part of this repository, so its step runner, start path and
execution state machine are modelled from the specification.

UUIDs and timestamps are modelled as natural numbers; the `uuid.New()` random
draw and `time.Now()` clock read performed inside step bodies are made explicit
arguments of the embedded functions.
-/

namespace ChatApp

/-! Data model, from `models/models.go` and `migrations/001_init.sql`. -/

abbrev UUID := Nat

abbrev Timestamp := Nat

structure Message where
  ID : UUID
  ConversationID : UUID
  Role : String
  Content : String
  CreatedAt : Timestamp
deriving DecidableEq

structure Conversation where
  ID : UUID
  CreatedAt : Timestamp
deriving DecidableEq

/-- The two application tables, `conversations` and `messages`. -/
structure DB where
  conversations : List Conversation
  messages : List Message
deriving DecidableEq

/-! The vLLM client payload construction, from `services` (src/unnamed/part_001,
`VLLMService.Chat` lines 59-83): the request message list is built by appending
each history message and then the new user message. -/

structure VLLMMessage where
  Role : String
  Content : String
deriving DecidableEq

/-- `Chat` builds the model-call payload: conversation history first, then the
new user message with role `"user"`. -/
def chatPayload (messages : List Message) (userMessage : String) : List VLLMMessage :=
  (messages.foldl (fun acc m => acc ++ [VLLMMessage.mk m.Role m.Content]) []) ++
    [VLLMMessage.mk "user" userMessage]

/-! The SendMessage workflow, from `workflows` (src/unnamed/part_004). -/

structure SendMessageInput where
  ConversationID : UUID
  Content : String
deriving DecidableEq

structure SendMessageOutput where
  UserMessage : Message
  AssistantMessage : Message
deriving DecidableEq

/-- One durable step call made by a workflow, identified by what the body does. -/
inductive StepCall where
  | getMessages (conversationID : UUID)
  | saveMessage (conversationID : UUID) (role : String) (content : String)
  | chat (history : List Message) (userMessage : String)
deriving DecidableEq

/-- Outcomes of the three kinds of step bodies the SendMessage workflow runs.
The bodies touch the database and the external model, so their results are an
environment parameter of the embedding. -/
structure StepEnv where
  getMessagesStep : UUID → Except String (List Message)
  saveMessageStep : UUID → String → String → Except String Message
  chatStep : List Message → String → Except String String

/-- Result of driving a workflow function: the ordered trace of step calls it
issued, the message rows persisted by its completed save steps, and its return
value or error. -/
structure WorkflowRun where
  trace : List StepCall
  persisted : List Message
  result : Except String SendMessageOutput

/-- `SendMessageWorkflow` (src/unnamed/part_004 lines 43-81): step 1 fetches the
conversation history, step 2 saves the user message, step 3 calls the model with
the history plus the new user content, step 4 saves the assistant reply; any
step error aborts the workflow with that error. -/
def sendMessageWorkflow (env : StepEnv) (input : SendMessageInput) : WorkflowRun :=
  match env.getMessagesStep input.ConversationID with
  | .error e => ⟨[.getMessages input.ConversationID], [], .error e⟩
  | .ok messages =>
    match env.saveMessageStep input.ConversationID "user" input.Content with
    | .error e =>
      ⟨[.getMessages input.ConversationID,
        .saveMessage input.ConversationID "user" input.Content], [], .error e⟩
    | .ok userMsg =>
      match env.chatStep messages input.Content with
      | .error e =>
        ⟨[.getMessages input.ConversationID,
          .saveMessage input.ConversationID "user" input.Content,
          .chat messages input.Content], [userMsg], .error e⟩
      | .ok aiResponse =>
        match env.saveMessageStep input.ConversationID "assistant" aiResponse with
        | .error e =>
          ⟨[.getMessages input.ConversationID,
            .saveMessage input.ConversationID "user" input.Content,
            .chat messages input.Content,
            .saveMessage input.ConversationID "assistant" aiResponse],
           [userMsg], .error e⟩
        | .ok assistantMsg =>
          ⟨[.getMessages input.ConversationID,
            .saveMessage input.ConversationID "user" input.Content,
            .chat messages input.Content,
            .saveMessage input.ConversationID "assistant" aiResponse],
           [userMsg, assistantMsg], .ok ⟨userMsg, assistantMsg⟩⟩

/-- `saveMessage` (src/unnamed/part_004 lines 105-123): the body draws
`id := uuid.New()` (a fresh random draw, the `freshUuid` argument here) and
`now := time.Now()`, inserts the row, and returns it. -/
def saveMessage (freshUuid : UUID) (now : Timestamp) (conversationID : UUID)
    (role content : String) : Message :=
  ⟨freshUuid, conversationID, role, content, now⟩

/-- The single step body of `CreateConversationWorkflow` (src/unnamed/part_004
lines 126-143): draws `id := uuid.New()` and inserts the conversation row. -/
def createConversationStep (freshUuid : UUID) (now : Timestamp) : Conversation :=
  ⟨freshUuid, now⟩

/-! SQL queries issued by the handlers, from `handlers/chat.go`.  A `SELECT ...
ORDER BY created_at` is embedded as a stable sort of the filtered rows. -/

/-- Ascending order on messages by `created_at`. -/
def createdAtLe (a b : Message) : Prop := a.CreatedAt ≤ b.CreatedAt

instance : DecidableRel createdAtLe :=
  fun a b => inferInstanceAs (Decidable (a.CreatedAt ≤ b.CreatedAt))

instance : IsTotal Message createdAtLe :=
  ⟨fun a b => Nat.le_total a.CreatedAt b.CreatedAt⟩

instance : IsTrans Message createdAtLe :=
  ⟨fun _ _ _ => Nat.le_trans⟩

/-- Descending order on conversations by `created_at`. -/
def convCreatedAtDesc (a b : Conversation) : Prop := b.CreatedAt ≤ a.CreatedAt

instance : DecidableRel convCreatedAtDesc :=
  fun a b => inferInstanceAs (Decidable (b.CreatedAt ≤ a.CreatedAt))

instance : IsTotal Conversation convCreatedAtDesc :=
  ⟨fun a b => Nat.le_total b.CreatedAt a.CreatedAt⟩

instance : IsTrans Conversation convCreatedAtDesc :=
  ⟨fun _ _ _ hab hbc => Nat.le_trans hbc hab⟩

/-- `SELECT ... FROM messages WHERE conversation_id = $1 ORDER BY created_at ASC`
(handlers/chat.go lines 182-184). -/
def getMessagesQuery (db : DB) (conversationID : UUID) : List Message :=
  List.insertionSort createdAtLe
    (db.messages.filter fun m => m.ConversationID == conversationID)

/-- `SELECT id, created_at FROM conversations ORDER BY created_at DESC`
(handlers/chat.go lines 57-58). -/
def listConversationsQuery (db : DB) : List Conversation :=
  List.insertionSort convCreatedAtDesc db.conversations

/-- A Go slice: `none` models a nil slice (rendered as JSON `null`), `some`
models a non-nil slice (rendered as a JSON array). -/
def GoSlice (α : Type) : Type := Option (List α)

/-- The handlers' row loop: start from the non-nil empty slice literal
(`[]models.X{}`) and append each row, as in chat.go lines 66-74 and 191-199. -/
def collectRows {α : Type} (rows : List α) : GoSlice α :=
  rows.foldl (fun acc m => acc.map fun l => l ++ [m]) (some [])

/-- `GetMessages` happy path (handlers/chat.go lines 175-202): the JSON array
the handler responds with. -/
def getMessagesHandlerRows (db : DB) (conversationID : UUID) : GoSlice Message :=
  collectRows (getMessagesQuery db conversationID)

/-- `ListConversations` happy path (handlers/chat.go lines 56-77): the JSON
array the handler responds with. -/
def listConversationsHandlerRows (db : DB) : GoSlice Conversation :=
  collectRows (listConversationsQuery db)

/-! The HTTP boundary of `SendMessage` and `DeleteConversation`. -/

/-- An HTTP response produced by the chat handlers. -/
inductive Resp where
  | badRequest (msg : String)
  | notFound (msg : String)
  | serverErr (msg : String)
  | okChat (userMessage assistantMessage : Message)
  | okText (msg : String)
deriving DecidableEq

def Resp.statusCode : Resp → Nat
  | .badRequest _ => 400
  | .notFound _ => 404
  | .serverErr _ => 500
  | .okChat _ _ => 200
  | .okText _ => 200

/-- Whether a response body carries any persisted message row. -/
def Resp.carriesMessage : Resp → Bool
  | .okChat _ _ => true
  | _ => false

/-- Binding of `SendMessageRequest` (models/models.go lines 25-27): the
`content` field is tagged `binding:"required"`, so binding fails when the field
is absent or is the zero value `""`. -/
def bindSendMessageRequest (bodyContent : Option String) : Option String :=
  match bodyContent with
  | none => none
  | some c => if c = "" then none else some c

/-- `SELECT EXISTS(SELECT 1 FROM conversations WHERE id = $1)`
(handlers/chat.go lines 141-142). -/
def conversationExists (db : DB) (conversationID : UUID) : Bool :=
  db.conversations.any fun c => c.ID == conversationID

/-- What one `SendMessage` HTTP request produced: the response, whether the
workflow was started, and the message rows persisted while handling it. -/
structure SendMessageHttpResult where
  resp : Resp
  workflowStarted : Bool
  persisted : List Message
deriving DecidableEq

/-- `SendMessage` (handlers/chat.go lines 126-172): parse the `:id` path
parameter as a UUID (`pathId = none` models a parse failure), bind the JSON
body, verify the conversation exists, then run the workflow and wait for its
result; on workflow error respond 500 with no message payload. -/
def sendMessageHandler (env : StepEnv) (db : DB) (pathId : Option UUID)
    (bodyContent : Option String) : SendMessageHttpResult :=
  match pathId with
  | none => ⟨.badRequest "Invalid conversation ID", false, []⟩
  | some id =>
    match bindSendMessageRequest bodyContent with
    | none => ⟨.badRequest "Invalid request body", false, []⟩
    | some content =>
      if conversationExists db id then
        match (sendMessageWorkflow env ⟨id, content⟩).result with
        | .ok out =>
          ⟨.okChat out.UserMessage out.AssistantMessage, true,
           (sendMessageWorkflow env ⟨id, content⟩).persisted⟩
        | .error e =>
          ⟨.serverErr ("Failed to get AI response: " ++ e), true,
           (sendMessageWorkflow env ⟨id, content⟩).persisted⟩
      else ⟨.notFound "Conversation not found", false, []⟩

/-- One durable step call made by `DeleteConversationWorkflow`. -/
inductive DeleteStep where
  | deleteMessages (conversationID : UUID)
  | deleteConversation (conversationID : UUID)
deriving DecidableEq

/-- Result of `DeleteConversationWorkflow`: its step trace, the database after
it, and its return value. -/
structure DeleteRun where
  trace : List DeleteStep
  db : DB
  result : Except String Bool

/-- `DeleteConversationWorkflow` (src/unnamed/part_004 lines 146-161): step 1
runs `DELETE FROM messages WHERE conversation_id = $1`, step 2 runs
`DELETE FROM conversations WHERE id = $1`; a SQL `DELETE` matching no rows is
still a success, so both steps return `true`. -/
def deleteConversationWorkflow (db : DB) (conversationID : UUID) : DeleteRun :=
  let db1 : DB :=
    ⟨db.conversations, db.messages.filter fun m => !(m.ConversationID == conversationID)⟩
  let db2 : DB :=
    ⟨db1.conversations.filter fun c => !(c.ID == conversationID), db1.messages⟩
  ⟨[.deleteMessages conversationID, .deleteConversation conversationID], db2, .ok true⟩

/-- `DeleteConversation` (handlers/chat.go lines 100-123): parse the id, run
the workflow, and respond 200 `"Conversation deleted"` on success; there is no
existence check and no 404 path. -/
def deleteConversationHandler (db : DB) (pathId : Option UUID) : Resp × DB :=
  match pathId with
  | none => (.badRequest "Invalid conversation ID", db)
  | some id =>
    match (deleteConversationWorkflow db id).result with
    | .ok _ => (.okText "Conversation deleted", (deleteConversationWorkflow db id).db)
    | .error _ =>
      (.serverErr "Failed to delete conversation", (deleteConversationWorkflow db id).db)

/-! The durable workflow engine.  The engine is the `dbos` library dependency,
whose source is not under this repository's tree; the definitions below are
modelled from the specification (sections 3, 4.3, 4.4, 4.6 and 7). -/

/-- Modelled from the spec: StepRecord status (section 3). -/
inductive StepStatus where
  | RUNNING
  | SUCCESS
  | ERROR
deriving DecidableEq

/-- Modelled from the spec: a StepRecord row keyed by `(workflow_id,
step_number)` (section 3), with `output` present only on `SUCCESS`. -/
structure StepRecord (V : Type) where
  workflowId : Nat
  stepNumber : Nat
  status : StepStatus
  output : Option V
  attemptCount : Nat
deriving DecidableEq

/-- Modelled from the spec: one attempt of a step body ends in success, a
transient failure (retried) or a permanent failure (not retried)
(sections 4.3 and 7). The attempt index is the body's argument. -/
inductive StepOutcome (V : Type) where
  | ok (v : V)
  | transientErr (e : String)
  | permanentErr (e : String)
deriving DecidableEq

/-- Modelled from the spec: the bounded retry policy of the Step Runner —
a capped number of attempts with exponential backoff (section 4.3). -/
structure RetryPolicy where
  maxAttempts : Nat
  baseDelay : Nat
deriving DecidableEq

/-- Modelled from the spec: the Persistence Store lookup of the StepRecord for
`(workflow_id, step_number)` (sections 3 and 4.3). -/
def lookupStep {V : Type} (store : List (StepRecord V)) (wf n : Nat) :
    Option (StepRecord V) :=
  store.find? fun r => r.workflowId == wf && r.stepNumber == n

/-- Modelled from the spec: the atomic upsert of a StepRecord keyed by
`(workflow_id, step_number)` (section 4.1). -/
def upsertStep {V : Type} (store : List (StepRecord V)) (rec : StepRecord V) :
    List (StepRecord V) :=
  rec :: store.filter fun r =>
    !(r.workflowId == rec.workflowId && r.stepNumber == rec.stepNumber)

/-- Modelled from the spec: the Step Runner's attempt loop (section 4.3 step 2).
Runs the body up to `fuel` times starting at attempt index `i`; a transient
failure sleeps `base * 2 ^ attempt` and retries, a permanent failure or success
stops.  Returns how many times the body ran, the backoff delays slept, and the
final outcome. -/
def attemptLoop {V : Type} (body : Nat → StepOutcome V) (base : Nat) :
    Nat → Nat → Nat × List Nat × Except String V
  | 0, _ => (0, [], .error "no attempts configured")
  | fuel + 1, i =>
    match body i with
    | .ok v => (1, [], .ok v)
    | .permanentErr e => (1, [], .error e)
    | .transientErr e =>
      match fuel with
      | 0 => (1, [], .error e)
      | fuel2 + 1 =>
        let rest := attemptLoop body base (fuel2 + 1) (i + 1)
        (rest.1 + 1, base * 2 ^ i :: rest.2.1, rest.2.2)

/-- Result of one `RunStep` call: the store afterwards, the value returned to
the workflow function, how many times the body was invoked, and the backoff
delays slept. -/
structure StepRunResult (V : Type) where
  store : List (StepRecord V)
  result : Except String V
  bodyCalls : Nat
  delays : List Nat

/-- Modelled from the spec: the fresh-execution path of `RunStep`
(section 4.3 steps 2-4): run the attempt loop, then atomically record the
outcome as a `SUCCESS` record holding the output or an `ERROR` record. -/
def runStepFresh {V : Type} (store : List (StepRecord V)) (wf n : Nat)
    (body : Nat → StepOutcome V) (pol : RetryPolicy) : StepRunResult V :=
  let a := attemptLoop body pol.baseDelay pol.maxAttempts 0
  match a.2.2 with
  | .ok v => ⟨upsertStep store ⟨wf, n, .SUCCESS, some v, a.1⟩, .ok v, a.1, a.2.1⟩
  | .error e => ⟨upsertStep store ⟨wf, n, .ERROR, none, a.1⟩, .error e, a.1, a.2.1⟩

/-- Modelled from the spec: `RunStep(workflowID, stepNumber, body)`
(section 4.3): when a `SUCCESS` record exists for the position, return its
recorded output without invoking the body; otherwise run the body under the
retry policy and record the outcome. -/
def runStep {V : Type} (store : List (StepRecord V)) (wf n : Nat)
    (body : Nat → StepOutcome V) (pol : RetryPolicy) : StepRunResult V :=
  match lookupStep store wf n with
  | some r =>
    match r.status, r.output with
    | .SUCCESS, some o => ⟨store, .ok o, 0, []⟩
    | _, _ => runStepFresh store wf n body pol
  | none => runStepFresh store wf n body pol

/-- Modelled from the spec: the Workflow Runtime driving a positional list of
step bodies in order through `RunStep` (sections 4.4 and 5), stopping at the
first step error.  Returns, aligned with the body list: how often each body was
invoked, the value each position returned to the workflow function (`none` when
never reached), and the final store. -/
def runSteps {V : Type} (pol : RetryPolicy) (wf : Nat) :
    List (Nat → StepOutcome V) → List (StepRecord V) → Nat →
      List Nat × List (Option V) × List (StepRecord V)
  | [], store, _ => ([], [], store)
  | b :: rest, store, i =>
    let r := runStep store wf i b pol
    match r.result with
    | .ok v =>
      let t := runSteps pol wf rest r.store (i + 1)
      (r.bodyCalls :: t.1, some v :: t.2.1, t.2.2)
    | .error _ =>
      (r.bodyCalls :: List.replicate rest.length 0,
       none :: List.replicate rest.length none, r.store)

/-- Modelled from the spec: WorkflowExecution status (section 3). -/
inductive WfStatus where
  | PENDING
  | RUNNING
  | SUCCESS
  | ERROR
deriving DecidableEq

/-- `SUCCESS` and `ERROR` are the terminal statuses. -/
def WfStatus.isTerminal : WfStatus → Bool
  | .SUCCESS => true
  | .ERROR => true
  | _ => false

/-- Progress rank of a status along `PENDING → RUNNING → {SUCCESS, ERROR}`. -/
def WfStatus.rank : WfStatus → Nat
  | .PENDING => 0
  | .RUNNING => 1
  | .SUCCESS => 2
  | .ERROR => 2

/-- Modelled from the spec: the monotone status transitions of a
WorkflowExecution (sections 3 and 4.4). -/
def allowedTransition : WfStatus → WfStatus → Bool
  | .PENDING, .RUNNING => true
  | .RUNNING, .SUCCESS => true
  | .RUNNING, .ERROR => true
  | _, _ => false

/-- Modelled from the spec: a WorkflowExecution row (section 3);
`output` and `errorDetail` are populated only in terminal states. -/
structure WorkflowExec (V : Type) where
  id : Nat
  status : WfStatus
  output : Option V
  errorDetail : Option String
deriving DecidableEq

/-- Modelled from the spec: the stored result of a terminal execution — the
output on `SUCCESS`, the error detail otherwise (sections 4.4 and 4.6). -/
def storedResult {V : Type} (e : WorkflowExec V) : Except String V :=
  match e.status, e.output with
  | .SUCCESS, some o => .ok o
  | _, _ => .error (e.errorDetail.getD "execution failed")

/-- Modelled from the spec: the atomic terminal transition of an execution
(section 4.4): a compare-and-set that is a no-op once the execution is already
terminal, so the first finalization wins. -/
def finalizeExec {V : Type} (e : WorkflowExec V) (out : Except String V) :
    WorkflowExec V :=
  if e.status.isTerminal then e
  else
    match out with
    | .ok v => ⟨e.id, .SUCCESS, some v, e.errorDetail⟩
    | .error err => ⟨e.id, .ERROR, e.output, some err⟩

/-- Modelled from the spec: `handle.GetResult()` (section 4.6) — a pure read of
the execution row that yields the stored terminal outcome, and `none` (the
caller keeps blocking) while the execution is non-terminal. -/
def getResult {V : Type} (e : WorkflowExec V) : Option (Except String V) :=
  if e.status.isTerminal then some (storedResult e) else none

/-- Modelled from the spec: the Persistence Store lookup of a WorkflowExecution
row by id (section 3). -/
def lookupExec {V : Type} (store : List (WorkflowExec V)) (id : Nat) :
    Option (WorkflowExec V) :=
  store.find? fun e => e.id == id

/-- Number of WorkflowExecution rows with the given id. -/
def countExec {V : Type} (store : List (WorkflowExec V)) (id : Nat) : Nat :=
  store.countP fun e => e.id == id

/-- Modelled from the spec: a fresh execution driven to its terminal state
(section 4.4); `fn` is the registered workflow function's outcome on this
input. -/
def runToTerminal {V : Type} (id : Nat) (fn : Except String V) : WorkflowExec V :=
  match fn with
  | .ok v => ⟨id, .SUCCESS, some v, none⟩
  | .error e => ⟨id, .ERROR, none, some e⟩

/-- Result of a `Start` call: the store afterwards, whether the workflow
function was invoked by this call, and the result the returned handle resolves
to (`none` while the joined execution is still in flight). -/
structure StartRes (V : Type) where
  store : List (WorkflowExec V)
  invoked : Bool
  result : Option (Except String V)

/-- Modelled from the spec: `Start(name, input, id)` (section 4.4): atomically
create-if-absent the WorkflowExecution row; an existing terminal row returns
its stored result without re-invoking anything, an existing non-terminal row is
attached to, and only a fresh row invokes the registered function. -/
def start {V : Type} (store : List (WorkflowExec V)) (id : Nat)
    (fn : Except String V) : StartRes V :=
  match lookupExec store id with
  | some e =>
    if e.status.isTerminal then ⟨store, false, some (storedResult e)⟩
    else ⟨store, false, none⟩
  | none =>
    let e := runToTerminal id fn
    ⟨e :: store, true, some (storedResult e)⟩

/-! Concrete step environments used to evaluate the embedding on inputs. -/

/-- A step environment in which every step succeeds: empty history, inserted
rows get id 1 at time 0, the model replies `"pong"`. -/
def envOkW : StepEnv :=
  ⟨fun _ => .ok [],
   fun cid role content => .ok ⟨1, cid, role, content, 0⟩,
   fun _ _ => .ok "pong"⟩

/-- A step environment in which the history fetch and the user-message save
succeed but the model call fails. -/
def envChatFailW : StepEnv :=
  ⟨fun _ => .ok [],
   fun cid role content => .ok ⟨1, cid, role, content, 0⟩,
   fun _ _ => .error "vLLM down"⟩

/-! Theorems. -/

theorem foldl_append_map {α β : Type} (f : α → β) :
    ∀ (l : List α) (acc : List β),
      l.foldl (fun a m => a ++ [f m]) acc = acc ++ l.map f
  | [], _ => by simp
  | x :: xs, acc => by
    simpa using foldl_append_map f xs (acc ++ [f x])

theorem chatPayload_eq (messages : List Message) (u : String) :
    chatPayload messages u =
      messages.map (fun m => VLLMMessage.mk m.Role m.Content) ++
        [VLLMMessage.mk "user" u] := by
  simp [chatPayload, foldl_append_map]

theorem collectRows_aux {α : Type} :
    ∀ (l : List α) (acc : List α),
      l.foldl (fun acc2 m => acc2.map fun l2 => l2 ++ [m]) (some acc) =
        some (acc ++ l)
  | [], _ => by simp
  | x :: xs, acc => by
    simpa using collectRows_aux xs (acc ++ [x])

theorem collectRows_eq_some {α : Type} (l : List α) : collectRows l = some l := by
  simpa [collectRows] using collectRows_aux l []

/-- C1: for every SendMessageInput, SendMessageWorkflow executes exactly four
durable steps in this fixed order — fetch the conversation's message history,
persist the user message, call the external model with the history plus the new
user message, persist the assistant reply — and on success returns an output
containing both the persisted user message and the persisted assistant
message. -/
theorem sendMessageWorkflow_four_steps (env : StepEnv) (input : SendMessageInput)
    (out : SendMessageOutput) (tr : List StepCall) (pers : List Message)
    (h : sendMessageWorkflow env input = ⟨tr, pers, .ok out⟩) :
    ∃ messages userMsg aiResponse assistantMsg,
      env.getMessagesStep input.ConversationID = .ok messages ∧
      env.saveMessageStep input.ConversationID "user" input.Content = .ok userMsg ∧
      env.chatStep messages input.Content = .ok aiResponse ∧
      env.saveMessageStep input.ConversationID "assistant" aiResponse = .ok assistantMsg ∧
      tr = [.getMessages input.ConversationID,
            .saveMessage input.ConversationID "user" input.Content,
            .chat messages input.Content,
            .saveMessage input.ConversationID "assistant" aiResponse] ∧
      out = ⟨userMsg, assistantMsg⟩ ∧
      chatPayload messages input.Content =
        messages.map (fun m => VLLMMessage.mk m.Role m.Content) ++
          [VLLMMessage.mk "user" input.Content] := by
  cases h1 : env.getMessagesStep input.ConversationID with
  | error e => simp [sendMessageWorkflow, h1] at h
  | ok messages =>
  cases h2 : env.saveMessageStep input.ConversationID "user" input.Content with
  | error e => simp [sendMessageWorkflow, h1, h2] at h
  | ok userMsg =>
  cases h3 : env.chatStep messages input.Content with
  | error e => simp [sendMessageWorkflow, h1, h2, h3] at h
  | ok aiResponse =>
  cases h4 : env.saveMessageStep input.ConversationID "assistant" aiResponse with
  | error e => simp [sendMessageWorkflow, h1, h2, h3, h4] at h
  | ok assistantMsg =>
    simp only [sendMessageWorkflow, h1, h2, h3, h4, WorkflowRun.mk.injEq,
      Except.ok.injEq] at h
    exact ⟨messages, userMsg, aiResponse, assistantMsg, rfl, rfl, h3, h4,
      h.1.symm, h.2.2.symm, chatPayload_eq messages input.Content⟩

theorem sendMessageWorkflow_four_steps_witness :
    ∃ messages userMsg aiResponse assistantMsg,
      envOkW.getMessagesStep 7 = .ok messages ∧
      envOkW.saveMessageStep 7 "user" "hello" = .ok userMsg ∧
      envOkW.chatStep messages "hello" = .ok aiResponse ∧
      envOkW.saveMessageStep 7 "assistant" aiResponse = .ok assistantMsg ∧
      [StepCall.getMessages 7, .saveMessage 7 "user" "hello",
       .chat [] "hello", .saveMessage 7 "assistant" "pong"] =
        [.getMessages 7, .saveMessage 7 "user" "hello",
         .chat messages "hello", .saveMessage 7 "assistant" aiResponse] ∧
      (⟨⟨1, 7, "user", "hello", 0⟩, ⟨1, 7, "assistant", "pong", 0⟩⟩ : SendMessageOutput) =
        ⟨userMsg, assistantMsg⟩ ∧
      chatPayload messages "hello" =
        messages.map (fun m => VLLMMessage.mk m.Role m.Content) ++
          [VLLMMessage.mk "user" "hello"] :=
  sendMessageWorkflow_four_steps envOkW ⟨7, "hello"⟩
    ⟨⟨1, 7, "user", "hello", 0⟩, ⟨1, 7, "assistant", "pong", 0⟩⟩
    [.getMessages 7, .saveMessage 7 "user" "hello",
     .chat [] "hello", .saveMessage 7 "assistant" "pong"]
    [⟨1, 7, "user", "hello", 0⟩, ⟨1, 7, "assistant", "pong", 0⟩] rfl

/-- C3: the claim states that the row id a step body inserts is a deterministic
function of the workflow id and step position; in the code `saveMessage` and
the `CreateConversationWorkflow` body draw `uuid.New()` afresh inside the body,
so two attempts of the same step of the same execution that differ only in the
random draw insert different row ids — evaluated here at draws 100 and 200. -/
theorem saveMessage_fresh_draw_not_positional :
    (saveMessage 100 0 7 "user" "hi").ID = 100 ∧
    (saveMessage 200 0 7 "user" "hi").ID = 200 ∧
    (((saveMessage 100 0 7 "user" "hi").ID ==
      (saveMessage 200 0 7 "user" "hi").ID) = false) ∧
    (((createConversationStep 100 0).ID == (createConversationStep 200 0).ID) = false) := by
  decide

/-- C5: for every SendMessage request whose workflow ends in error, the HTTP
caller receives a failure response (status 500) carrying no partial output — in
particular no persisted user message is returned — even when earlier steps of
the workflow succeeded. -/
theorem sendMessage_all_or_nothing (env : StepEnv) (db : DB) (id : UUID)
    (content e : String)
    (hc : content ≠ "")
    (hex : conversationExists db id = true)
    (herr : (sendMessageWorkflow env ⟨id, content⟩).result = .error e) :
    (sendMessageHandler env db (some id) (some content)).resp =
      .serverErr ("Failed to get AI response: " ++ e) ∧
    (sendMessageHandler env db (some id) (some content)).resp.statusCode = 500 ∧
    (sendMessageHandler env db (some id) (some content)).resp.carriesMessage = false := by
  have hh : sendMessageHandler env db (some id) (some content) =
      ⟨.serverErr ("Failed to get AI response: " ++ e), true,
       (sendMessageWorkflow env ⟨id, content⟩).persisted⟩ := by
    simp [sendMessageHandler, bindSendMessageRequest, hc, hex, herr]
  rw [hh]
  exact ⟨rfl, rfl, rfl⟩

theorem sendMessage_all_or_nothing_witness :
    (sendMessageWorkflow envChatFailW ⟨7, "hello"⟩).persisted =
      [⟨1, 7, "user", "hello", 0⟩] ∧
    ((sendMessageHandler envChatFailW ⟨[⟨7, 0⟩], []⟩ (some 7) (some "hello")).resp =
      .serverErr ("Failed to get AI response: " ++ "vLLM down") ∧
    (sendMessageHandler envChatFailW ⟨[⟨7, 0⟩], []⟩ (some 7) (some "hello")).resp.statusCode = 500 ∧
    (sendMessageHandler envChatFailW ⟨[⟨7, 0⟩], []⟩ (some 7) (some "hello")).resp.carriesMessage = false) :=
  ⟨rfl, sendMessage_all_or_nothing envChatFailW ⟨[⟨7, 0⟩], []⟩ 7 "hello" "vLLM down"
    (by decide) rfl rfl⟩

/-- C8: for every SendMessage HTTP request, an unparsable conversation id gets
response 400, a JSON body whose required `content` field is absent or empty
gets response 400, and a missing conversation gets response 404; in all three
cases no workflow is started and no message row is persisted. -/
theorem sendMessage_validation_rejects (env : StepEnv) (db : DB)
    (anyBody : Option String) (idB : UUID) (bodyB : Option String)
    (idC : UUID) (bodyC : Option String) (contentC : String)
    (hB : bindSendMessageRequest bodyB = none)
    (hC1 : bindSendMessageRequest bodyC = some contentC)
    (hC2 : conversationExists db idC = false) :
    sendMessageHandler env db none anyBody =
      ⟨.badRequest "Invalid conversation ID", false, []⟩ ∧
    sendMessageHandler env db (some idB) bodyB =
      ⟨.badRequest "Invalid request body", false, []⟩ ∧
    sendMessageHandler env db (some idC) bodyC =
      ⟨.notFound "Conversation not found", false, []⟩ ∧
    (Resp.badRequest "Invalid conversation ID").statusCode = 400 ∧
    (Resp.notFound "Conversation not found").statusCode = 404 := by
  refine ⟨rfl, ?_, ?_, rfl, rfl⟩ <;>
    simp [sendMessageHandler, hB, hC1, hC2]

theorem sendMessage_validation_rejects_witness :
    sendMessageHandler envOkW ⟨[⟨7, 0⟩], []⟩ none none =
      ⟨.badRequest "Invalid conversation ID", false, []⟩ ∧
    sendMessageHandler envOkW ⟨[⟨7, 0⟩], []⟩ (some 7) (some "") =
      ⟨.badRequest "Invalid request body", false, []⟩ ∧
    sendMessageHandler envOkW ⟨[⟨7, 0⟩], []⟩ (some 9) (some "hi") =
      ⟨.notFound "Conversation not found", false, []⟩ ∧
    (Resp.badRequest "Invalid conversation ID").statusCode = 400 ∧
    (Resp.notFound "Conversation not found").statusCode = 404 :=
  sendMessage_validation_rejects envOkW ⟨[⟨7, 0⟩], []⟩ none 7 (some "") 9
    (some "hi") "hi" rfl rfl (by decide)

/-- C9: GetMessages responds with exactly the messages whose conversation_id
equals the given id, sorted ascending by created_at, and ListConversations
responds with all conversations sorted descending by created_at; both respond
with a JSON array (a non-nil slice), never null, also when there are no
rows. -/
theorem queries_exact_sorted_nonnull (db : DB) (cid : UUID) :
    ∃ rows, getMessagesHandlerRows db cid = some rows ∧
      List.Perm rows (db.messages.filter fun m => m.ConversationID == cid) ∧
      (∀ m : Message, m ∈ rows ↔ m ∈ db.messages ∧ m.ConversationID = cid) ∧
      List.Sorted createdAtLe rows ∧
      ∃ convs, listConversationsHandlerRows db = some convs ∧
        List.Perm convs db.conversations ∧
        List.Sorted convCreatedAtDesc convs := by
  refine ⟨getMessagesQuery db cid, collectRows_eq_some _,
    List.perm_insertionSort _ _, ?_, List.sorted_insertionSort _ _,
    listConversationsQuery db, collectRows_eq_some _,
    List.perm_insertionSort _ _, List.sorted_insertionSort _ _⟩
  intro m
  simp [getMessagesQuery, List.mem_insertionSort, List.mem_filter]

/-- C10: deleting a conversation is idempotent at the HTTP boundary: for every
syntactically valid conversation id, including one with no matching row,
DeleteConversation runs the two-step workflow (delete all messages with that
conversation_id, then delete the conversation row) and responds 200 with
"Conversation deleted"; it never responds 404 for a missing conversation. -/
theorem delete_conversation_idempotent (db : DB) (id : UUID) :
    (deleteConversationHandler db (some id)).1 = .okText "Conversation deleted" ∧
    (deleteConversationHandler db (some id)).1.statusCode = 200 ∧
    (((deleteConversationHandler db (some id)).1.statusCode == 404) = false) ∧
    (deleteConversationWorkflow db id).trace =
      [.deleteMessages id, .deleteConversation id] ∧
    (deleteConversationHandler db (some id)).2.messages =
      db.messages.filter (fun m => !(m.ConversationID == id)) ∧
    (deleteConversationHandler db (some id)).2.conversations =
      db.conversations.filter (fun c => !(c.ID == id)) ∧
    (deleteConversationHandler (deleteConversationHandler db (some id)).2 (some id)).1 =
      .okText "Conversation deleted" := by
  simp [deleteConversationHandler, deleteConversationWorkflow, Resp.statusCode]

theorem find?_filter_of_imp {α : Type} (p q : α → Bool)
    (hpq : ∀ a, p a = true → q a = true) :
    ∀ l : List α, (l.filter q).find? p = l.find? p
  | [] => rfl
  | x :: xs => by
    cases hq : q x with
    | true =>
      cases hp : p x with
      | true => simp [List.filter, hq, List.find?, hp]
      | false => simp [List.filter, hq, List.find?, hp, find?_filter_of_imp p q hpq xs]
    | false =>
      have hp : p x = false := by
        cases hpx : p x with
        | true => exact absurd (hpq x hpx) (by simp [hq])
        | false => rfl
      simp [List.filter, hq, List.find?, hp, find?_filter_of_imp p q hpq xs]

theorem lookupStep_upsertStep_ne {V : Type} (store : List (StepRecord V))
    (rec : StepRecord V) (wf n : Nat) (hne : rec.stepNumber ≠ n) :
    lookupStep (upsertStep store rec) wf n = lookupStep store wf n := by
  unfold lookupStep upsertStep
  rw [List.find?_cons_of_neg, find?_filter_of_imp]
  · intro a ha
    simp only [Bool.and_eq_true, beq_iff_eq] at ha
    have h2 : a.stepNumber ≠ rec.stepNumber := by
      rw [ha.2]
      exact fun hcon => hne hcon.symm
    simp [h2]
  · simp [hne]

theorem lookupStep_runStepFresh_ne {V : Type} (store : List (StepRecord V))
    (wf i n : Nat) (hne : i ≠ n) (body : Nat → StepOutcome V) (pol : RetryPolicy) :
    lookupStep (runStepFresh store wf i body pol).store wf n =
      lookupStep store wf n := by
  cases ha : (attemptLoop body pol.baseDelay pol.maxAttempts 0).2.2 with
  | ok v =>
    have hs : (runStepFresh store wf i body pol).store =
        upsertStep store
          ⟨wf, i, .SUCCESS, some v, (attemptLoop body pol.baseDelay pol.maxAttempts 0).1⟩ := by
      simp [runStepFresh, ha]
    rw [hs]
    exact lookupStep_upsertStep_ne store _ wf n hne
  | error e =>
    have hs : (runStepFresh store wf i body pol).store =
        upsertStep store
          ⟨wf, i, .ERROR, none, (attemptLoop body pol.baseDelay pol.maxAttempts 0).1⟩ := by
      simp [runStepFresh, ha]
    rw [hs]
    exact lookupStep_upsertStep_ne store _ wf n hne

theorem runStep_store_cases {V : Type} (store : List (StepRecord V)) (wf i : Nat)
    (body : Nat → StepOutcome V) (pol : RetryPolicy) :
    (runStep store wf i body pol).store = store ∨
    (runStep store wf i body pol).store = (runStepFresh store wf i body pol).store := by
  unfold runStep
  split
  · split
    · exact Or.inl rfl
    · exact Or.inr rfl
  · exact Or.inr rfl

theorem lookupStep_runStep_ne {V : Type} (store : List (StepRecord V))
    (wf i n : Nat) (hne : i ≠ n) (body : Nat → StepOutcome V) (pol : RetryPolicy) :
    lookupStep (runStep store wf i body pol).store wf n = lookupStep store wf n := by
  rcases runStep_store_cases store wf i body pol with h | h
  · rw [h]
  · rw [h]
    exact lookupStep_runStepFresh_ne store wf i n hne body pol

theorem runStep_skip {V : Type} (store : List (StepRecord V)) (wf n : Nat)
    (r : StepRecord V) (o : V) (body : Nat → StepOutcome V) (pol : RetryPolicy)
    (hfind : lookupStep store wf n = some r) (hst : r.status = .SUCCESS)
    (hout : r.output = some o) :
    runStep store wf n body pol = ⟨store, .ok o, 0, []⟩ := by
  unfold runStep
  rw [hfind]
  simp [hst, hout]

theorem get?_replicate_lt {α : Type} (a : α) :
    ∀ (k j : Nat), j < k → (List.replicate k a).get? j = some a
  | k + 1, 0, _ => rfl
  | k + 1, j + 1, h => by
    simpa [List.replicate] using get?_replicate_lt a k j (Nat.lt_of_succ_lt_succ h)

theorem runSteps_skip_aux {V : Type} (pol : RetryPolicy) (wf n : Nat) (o : V) :
    ∀ (bodies : List (Nat → StepOutcome V)) (store : List (StepRecord V)) (i : Nat),
      i ≤ n →
      (∃ r, lookupStep store wf n = some r ∧ r.status = .SUCCESS ∧ r.output = some o) →
      n - i < bodies.length →
      (runSteps pol wf bodies store i).1.get? (n - i) = some 0 ∧
        ((runSteps pol wf bodies store i).2.1.get? (n - i) = some (some o) ∨
         (runSteps pol wf bodies store i).2.1.get? (n - i) = some none)
  | [], _, _, _, _, hlen => by simp at hlen
  | b :: rest, store, i, hin, ⟨r, hfind, hst, hout⟩, hlen => by
    rcases Nat.eq_or_lt_of_le hin with heq | hlt
    · subst heq
      have hrs : runStep store wf i b pol = ⟨store, .ok o, 0, []⟩ :=
        runStep_skip store wf i r o b pol hfind hst hout
      simp [runSteps, hrs, Nat.sub_self]
    · have hpres : lookupStep (runStep store wf i b pol).store wf n =
          lookupStep store wf n :=
        lookupStep_runStep_ne store wf i n (Nat.ne_of_lt hlt) b pol
      have hsub : n - i = (n - (i + 1)) + 1 := by omega
      have hlen2 : n - (i + 1) < rest.length := by
        simp only [List.length_cons] at hlen
        omega
      cases hres : (runStep store wf i b pol).result with
      | ok v =>
        have ih := runSteps_skip_aux pol wf n o rest
          (runStep store wf i b pol).store (i + 1) hlt
          ⟨r, hpres.trans hfind, hst, hout⟩ hlen2
        simp only [runSteps, hres, hsub, List.get?_cons_succ]
        exact ih
      | error e =>
        constructor
        · simp only [runSteps, hres, hsub, List.get?_cons_succ]
          exact get?_replicate_lt 0 rest.length (n - (i + 1)) hlen2
        · right
          simp only [runSteps, hres, hsub, List.get?_cons_succ]
          exact get?_replicate_lt none rest.length (n - (i + 1)) hlen2

/-- C2: replay-skip — for every execution that has a SUCCESS step record at
position n, re-invoking the engine for that execution id never invokes the
step-n body again and returns the previously recorded output of that step to
the workflow function. -/
theorem runStep_replay_skip {V : Type} (pol : RetryPolicy) (wf n : Nat)
    (store : List (StepRecord V)) (r : StepRecord V) (o : V)
    (body : Nat → StepOutcome V) (bodies : List (Nat → StepOutcome V))
    (hfind : lookupStep store wf n = some r) (hst : r.status = .SUCCESS)
    (hout : r.output = some o) (hlen : n < bodies.length) :
    runStep store wf n body pol = ⟨store, .ok o, 0, []⟩ ∧
    (runSteps pol wf bodies store 0).1.get? n = some 0 ∧
    ((runSteps pol wf bodies store 0).2.1.get? n = some (some o) ∨
     (runSteps pol wf bodies store 0).2.1.get? n = some none) := by
  have aux := runSteps_skip_aux pol wf n o bodies store 0 (Nat.zero_le n)
    ⟨r, hfind, hst, hout⟩ (by simpa using hlen)
  simp only [Nat.sub_zero] at aux
  exact ⟨runStep_skip store wf n r o body pol hfind hst hout, aux.1, aux.2⟩

theorem runStep_replay_skip_witness :
    runStep [(⟨5, 1, .SUCCESS, some 42, 1⟩ : StepRecord Nat)] 5 1
        (fun _ => .ok 0) ⟨3, 1⟩ =
      ⟨[⟨5, 1, .SUCCESS, some 42, 1⟩], .ok 42, 0, []⟩ ∧
    (runSteps ⟨3, 1⟩ 5 [fun _ => .ok 7, fun _ => .ok 8, fun _ => .ok 9]
        [(⟨5, 1, .SUCCESS, some 42, 1⟩ : StepRecord Nat)] 0).1.get? 1 = some 0 ∧
    ((runSteps ⟨3, 1⟩ 5 [fun _ => .ok 7, fun _ => .ok 8, fun _ => .ok 9]
        [(⟨5, 1, .SUCCESS, some 42, 1⟩ : StepRecord Nat)] 0).2.1.get? 1 =
          some (some 42) ∨
     (runSteps ⟨3, 1⟩ 5 [fun _ => .ok 7, fun _ => .ok 8, fun _ => .ok 9]
        [(⟨5, 1, .SUCCESS, some 42, 1⟩ : StepRecord Nat)] 0).2.1.get? 1 =
          some none) :=
  runStep_replay_skip ⟨3, 1⟩ 5 1 [⟨5, 1, .SUCCESS, some 42, 1⟩]
    ⟨5, 1, .SUCCESS, some 42, 1⟩ 42 (fun _ => .ok 0)
    [fun _ => .ok 7, fun _ => .ok 8, fun _ => .ok 9] rfl rfl rfl (by decide)

theorem attemptLoop_transient {V : Type} (body : Nat → StepOutcome V) (base : Nat)
    (e : String) (hb : ∀ i, body i = .transientErr e) :
    ∀ (fuel i : Nat), 1 ≤ fuel →
      attemptLoop body base fuel i =
        (fuel, (List.range' i (fuel - 1)).map (fun j => base * 2 ^ j), .error e)
  | 0, _, h => absurd h (by omega)
  | 1, i, _ => by simp [attemptLoop, hb i]
  | fuel2 + 2, i, _ => by
    have ih := attemptLoop_transient body base e hb (fuel2 + 1) (i + 1) (by omega)
    simp [attemptLoop, hb i, ih, List.range']

theorem lookupStep_upsertStep_self {V : Type} (store : List (StepRecord V))
    (rec : StepRecord V) :
    lookupStep (upsertStep store rec) rec.workflowId rec.stepNumber = some rec := by
  unfold lookupStep upsertStep
  rw [List.find?_cons_of_pos]
  simp

/-- C4: retry bound — a step whose body fails transiently on every attempt is
attempted exactly the configured maximum number of times with exponential
backoff, after which the step is recorded as ERROR and the owning execution
reaches terminal ERROR with that failure recorded; a permanent failure is not
retried at all. -/
theorem step_retry_bound {V : Type} (pol : RetryPolicy) (wf n : Nat)
    (store : List (StepRecord V)) (body bodyPerm : Nat → StepOutcome V)
    (e ep : String) (exec : WorkflowExec V)
    (hm : 1 ≤ pol.maxAttempts)
    (hb : ∀ i, body i = .transientErr e)
    (hfind : lookupStep store wf n = none)
    (hp : bodyPerm 0 = .permanentErr ep)
    (hexec : exec.status = .RUNNING) :
    (runStep store wf n body pol).bodyCalls = pol.maxAttempts ∧
    (runStep store wf n body pol).delays =
      (List.range (pol.maxAttempts - 1)).map (fun j => pol.baseDelay * 2 ^ j) ∧
    (runStep store wf n body pol).result = .error e ∧
    lookupStep (runStep store wf n body pol).store wf n =
      some ⟨wf, n, .ERROR, none, pol.maxAttempts⟩ ∧
    (finalizeExec exec (runStep store wf n body pol).result).status = .ERROR ∧
    (finalizeExec exec (runStep store wf n body pol).result).errorDetail = some e ∧
    (runStep store wf n bodyPerm pol).bodyCalls = 1 ∧
    (runStep store wf n bodyPerm pol).result = .error ep := by
  have hal := attemptLoop_transient body pol.baseDelay e hb pol.maxAttempts 0 hm
  have hrs : runStep store wf n body pol =
      ⟨upsertStep store ⟨wf, n, .ERROR, none, pol.maxAttempts⟩, .error e,
       pol.maxAttempts,
       (List.range' 0 (pol.maxAttempts - 1)).map (fun j => pol.baseDelay * 2 ^ j)⟩ := by
    simp [runStep, hfind, runStepFresh, hal]
  obtain ⟨f, hf⟩ : ∃ f, pol.maxAttempts = f + 1 := ⟨pol.maxAttempts - 1, by omega⟩
  have hpl : attemptLoop bodyPerm pol.baseDelay pol.maxAttempts 0 =
      (1, [], .error ep) := by
    rw [hf]
    simp [attemptLoop, hp]
  have hrp : runStep store wf n bodyPerm pol =
      ⟨upsertStep store ⟨wf, n, .ERROR, none, 1⟩, .error ep, 1, []⟩ := by
    simp [runStep, hfind, runStepFresh, hpl]
  refine ⟨by rw [hrs], ?_, by rw [hrs], ?_, ?_, ?_, by rw [hrp], by rw [hrp]⟩
  · rw [hrs, List.range_eq_range']
  · rw [hrs]
    exact lookupStep_upsertStep_self store _
  · rw [hrs]
    simp [finalizeExec, hexec, WfStatus.isTerminal]
  · rw [hrs]
    simp [finalizeExec, hexec, WfStatus.isTerminal]

theorem step_retry_bound_witness :
    (runStep ([] : List (StepRecord Nat)) 5 0 (fun _ => .transientErr "net down")
        ⟨3, 2⟩).bodyCalls = 3 ∧
    (runStep ([] : List (StepRecord Nat)) 5 0 (fun _ => .transientErr "net down")
        ⟨3, 2⟩).delays = (List.range 2).map (fun j => 2 * 2 ^ j) ∧
    (runStep ([] : List (StepRecord Nat)) 5 0 (fun _ => .transientErr "net down")
        ⟨3, 2⟩).result = .error "net down" ∧
    lookupStep (runStep ([] : List (StepRecord Nat)) 5 0
        (fun _ => .transientErr "net down") ⟨3, 2⟩).store 5 0 =
      some ⟨5, 0, .ERROR, none, 3⟩ ∧
    (finalizeExec (⟨9, .RUNNING, none, none⟩ : WorkflowExec Nat)
        (runStep ([] : List (StepRecord Nat)) 5 0 (fun _ => .transientErr "net down")
          ⟨3, 2⟩).result).status = .ERROR ∧
    (finalizeExec (⟨9, .RUNNING, none, none⟩ : WorkflowExec Nat)
        (runStep ([] : List (StepRecord Nat)) 5 0 (fun _ => .transientErr "net down")
          ⟨3, 2⟩).result).errorDetail = some "net down" ∧
    (runStep ([] : List (StepRecord Nat)) 5 0 (fun _ => .permanentErr "bad input")
        ⟨3, 2⟩).bodyCalls = 1 ∧
    (runStep ([] : List (StepRecord Nat)) 5 0 (fun _ => .permanentErr "bad input")
        ⟨3, 2⟩).result = .error "bad input" := by
  have h := step_retry_bound (V := Nat) ⟨3, 2⟩ 5 0 []
    (fun _ => .transientErr "net down") (fun _ => .permanentErr "bad input")
    "net down" "bad input" ⟨9, .RUNNING, none, none⟩
    (by decide) (fun _ => rfl) rfl rfl rfl
  simpa using h

theorem countExec_eq_zero_of_lookup_none {V : Type} (store : List (WorkflowExec V))
    (id : Nat) (h : lookupExec store id = none) : countExec store id = 0 :=
  List.countP_eq_zero.2 (List.find?_eq_none.1 h)

theorem countExec_pos_of_lookup_some {V : Type} (store : List (WorkflowExec V))
    (id : Nat) (e : WorkflowExec V) (h : lookupExec store id = some e) :
    0 < countExec store id := by
  rw [countExec, List.countP_pos_iff]
  rw [lookupExec] at h
  have hp := List.find?_some h
  exact ⟨e, List.mem_of_find?_eq_some h, by simpa using hp⟩

/-- C6: idempotent Start — for every execution id, calling Start twice with the
same id and input invokes the underlying workflow function at most once; the
second call attaches to the existing execution instead of creating a duplicate
row, and if the execution is already terminal, Start returns the stored result
without re-invoking anything. -/
theorem start_idempotent {V : Type} (store store2 : List (WorkflowExec V))
    (id : Nat) (fn : Except String V) (e : WorkflowExec V)
    (hcount : countExec store id ≤ 1)
    (hlook2 : lookupExec store2 id = some e)
    (hterm : e.status.isTerminal = true) :
    (start (start store id fn).store id fn).invoked = false ∧
    (start (start store id fn).store id fn).store = (start store id fn).store ∧
    (start (start store id fn).store id fn).result = (start store id fn).result ∧
    countExec (start store id fn).store id = 1 ∧
    start store2 id fn = ⟨store2, false, some (storedResult e)⟩ := by
  have hlast : start store2 id fn = ⟨store2, false, some (storedResult e)⟩ := by
    simp [start, hlook2, hterm]
  cases hl : lookupExec store id with
  | some e1 =>
    have h1 : start store id fn =
        ⟨store, false, if e1.status.isTerminal then some (storedResult e1) else none⟩ := by
      by_cases ht : e1.status.isTerminal <;> simp [start, hl, ht]
    have hcnt : countExec store id = 1 :=
      Nat.le_antisymm hcount (countExec_pos_of_lookup_some store id e1 hl)
    exact ⟨by simp [h1], by simp [h1], by simp [h1], by simp [h1, hcnt], hlast⟩
  | none =>
    have hc0 : countExec store id = 0 := countExec_eq_zero_of_lookup_none store id hl
    have hid : (runToTerminal id fn).id = id := by cases fn <;> rfl
    have hterm1 : (runToTerminal id fn).status.isTerminal = true := by
      cases fn <;> rfl
    have h1 : start store id fn =
        ⟨runToTerminal id fn :: store, true,
         some (storedResult (runToTerminal id fn))⟩ := by
      simp [start, hl]
    have hl2 : lookupExec (runToTerminal id fn :: store) id =
        some (runToTerminal id fn) := by
      unfold lookupExec
      rw [List.find?_cons_of_pos]
      simp [hid]
    have h2 : start (runToTerminal id fn :: store) id fn =
        ⟨runToTerminal id fn :: store, false,
         some (storedResult (runToTerminal id fn))⟩ := by
      simp [start, hl2, hterm1]
    have hcnt : countExec (runToTerminal id fn :: store) id = 1 := by
      rw [countExec, List.countP_cons]
      rw [countExec] at hc0
      simp [hid, hc0]
    exact ⟨by simp [h1, h2], by simp [h1, h2], by simp [h1, h2],
      by simp [h1, hcnt], hlast⟩

theorem start_idempotent_witness :
    (start (start ([] : List (WorkflowExec Nat)) 3 (.ok 42)).store 3 (.ok 42)).invoked = false ∧
    (start (start ([] : List (WorkflowExec Nat)) 3 (.ok 42)).store 3 (.ok 42)).store =
      (start ([] : List (WorkflowExec Nat)) 3 (.ok 42)).store ∧
    (start (start ([] : List (WorkflowExec Nat)) 3 (.ok 42)).store 3 (.ok 42)).result =
      (start ([] : List (WorkflowExec Nat)) 3 (.ok 42)).result ∧
    countExec (start ([] : List (WorkflowExec Nat)) 3 (.ok 42)).store 3 = 1 ∧
    start [(⟨3, .SUCCESS, some 42, none⟩ : WorkflowExec Nat)] 3 (.ok 0) =
      ⟨[⟨3, .SUCCESS, some 42, none⟩], false,
       some (storedResult (⟨3, .SUCCESS, some 42, none⟩ : WorkflowExec Nat))⟩ :=
  start_idempotent [] [⟨3, .SUCCESS, some 42, none⟩] 3 (.ok 42) ⟨3, .SUCCESS, some 42, none⟩
    (by decide) rfl rfl
    |>.imp id (fun h => h.imp id (fun h2 => h2.imp id (fun h3 => h3.imp id (fun _ => by
      exact (start_idempotent (V := Nat) [] [⟨3, .SUCCESS, some 42, none⟩] 3 (.ok 0)
        ⟨3, .SUCCESS, some 42, none⟩ (by decide) rfl rfl).2.2.2.2))))

theorem finalizeExec_of_terminal {V : Type} (e : WorkflowExec V)
    (o : Except String V) (h : e.status.isTerminal = true) :
    finalizeExec e o = e := by
  simp [finalizeExec, h]

theorem finalizeExec_terminal_status {V : Type} (e : WorkflowExec V)
    (o : Except String V) (hrun : e.status = .RUNNING) :
    (finalizeExec e o).status.isTerminal = true := by
  cases o <;> simp [finalizeExec, hrun, WfStatus.isTerminal]

theorem getResult_finalize_running {V : Type} (e : WorkflowExec V)
    (o : Except String V) (hrun : e.status = .RUNNING) :
    getResult (finalizeExec e o) = some o := by
  cases o with
  | ok v => simp [finalizeExec, hrun, getResult, WfStatus.isTerminal, storedResult]
  | error err =>
    cases ho : e.output <;>
      simp [finalizeExec, hrun, getResult, WfStatus.isTerminal, storedResult, ho]

/-- C7: for every workflow execution, the status only moves along
PENDING → RUNNING → {SUCCESS or ERROR} and is never reversed (rank strictly
increases, no transition leaves a terminal status), at most one terminal
transition is ever recorded (finalization is first-writer-wins), and every
caller of GetResult observes the same terminal status and the same output or
error. -/
theorem status_monotone_single_terminal {V : Type} (s t sterm t2 : WfStatus)
    (e : WorkflowExec V) (o1 o2 : Except String V)
    (hst : allowedTransition s t = true)
    (hterm : sterm.isTerminal = true)
    (hrun : e.status = .RUNNING) :
    s.rank < t.rank ∧
    ((s = .PENDING ∧ t = .RUNNING) ∨ (s = .RUNNING ∧ t = .SUCCESS) ∨
     (s = .RUNNING ∧ t = .ERROR)) ∧
    allowedTransition sterm t2 = false ∧
    finalizeExec (finalizeExec e o1) o2 = finalizeExec e o1 ∧
    getResult (finalizeExec e o1) = some o1 ∧
    getResult (finalizeExec (finalizeExec e o1) o2) = some o1 := by
  refine ⟨?_, ?_, ?_, ?_, getResult_finalize_running e o1 hrun, ?_⟩
  · revert hst
    cases s <;> cases t <;> decide
  · revert hst
    cases s <;> cases t <;> decide
  · revert hterm
    cases sterm <;> cases t2 <;> decide
  · exact finalizeExec_of_terminal _ o2 (finalizeExec_terminal_status e o1 hrun)
  · rw [finalizeExec_of_terminal _ o2 (finalizeExec_terminal_status e o1 hrun)]
    exact getResult_finalize_running e o1 hrun

theorem status_monotone_single_terminal_witness :
    WfStatus.rank .PENDING < WfStatus.rank .RUNNING ∧
    (((WfStatus.PENDING = .PENDING) ∧ (WfStatus.RUNNING = .RUNNING)) ∨
     ((WfStatus.PENDING = .RUNNING) ∧ (WfStatus.RUNNING = .SUCCESS)) ∨
     ((WfStatus.PENDING = .RUNNING) ∧ (WfStatus.RUNNING = .ERROR))) ∧
    allowedTransition .SUCCESS .RUNNING = false ∧
    finalizeExec (finalizeExec (⟨1, .RUNNING, none, none⟩ : WorkflowExec Nat)
        (.ok 5)) (.error "late") =
      finalizeExec (⟨1, .RUNNING, none, none⟩ : WorkflowExec Nat) (.ok 5) ∧
    getResult (finalizeExec (⟨1, .RUNNING, none, none⟩ : WorkflowExec Nat) (.ok 5)) =
      some (.ok 5) ∧
    getResult (finalizeExec (finalizeExec (⟨1, .RUNNING, none, none⟩ : WorkflowExec Nat)
        (.ok 5)) (.error "late")) = some (.ok 5) :=
  status_monotone_single_terminal .PENDING .RUNNING .SUCCESS .RUNNING
    ⟨1, .RUNNING, none, none⟩ (.ok 5) (.error "late") rfl rfl rfl

end ChatApp
